import Mathlib

/-!
Verification of the lcars-system-monitor resilience pipeline.

Shallow embedding of the server and client core:
* `withTimeout`  — src/server/adapters/withTimeout.js
* `classifyMetric`, `getSystemMetrics` — src/server/repositories/MetricsRepository.js
* `computeGlobalStatus`, history ring buffer — SystemMonitorService
* `broadcastRun`, `stepM` — sseManager (SSEManager)
* `stepC` — src/client/js/sseClient.js (SSEClient)

Asynchronous operations are modelled by explicit completion times; the
JavaScript runtime's single-threaded event loop lets each handler be a pure
state-transition function.
-/

/- ### JavaScript `String.prototype.includes`, modelled on character lists -/

/-- Does the pattern match at the head of the character list? -/
def matchAt : List Char → List Char → Bool
  | [], _ => true
  | _ :: _, [] => false
  | p :: ps, c :: cs => p == c && matchAt ps cs

/-- Does the pattern occur anywhere in the character list? -/
def occursCL (pat : List Char) : List Char → Bool
  | [] => matchAt pat []
  | c :: cs => matchAt pat (c :: cs) || occursCL pat cs

/-- Model of JavaScript `s.includes(pat)`. -/
def occursIn (pat s : String) : Bool := occursCL pat.data s.data

theorem matchAt_append (p r : List Char) : matchAt p (p ++ r) = true := by
  induction p with
  | nil => rfl
  | cons a ps ih => simp [matchAt, ih]

theorem occursCL_of_matchAt {p s : List Char} (h : matchAt p s = true) :
    occursCL p s = true := by
  cases s with
  | nil => simpa [occursCL] using h
  | cons c cs => simp [occursCL, h]

theorem occursCL_append_of (p pre s : List Char) (h : occursCL p s = true) :
    occursCL p (pre ++ s) = true := by
  induction pre with
  | nil => simpa using h
  | cons c cs ih => simp [occursCL, ih]

/- ### Timeout Guard — withTimeout.js -/

/-- Outcome of a settled JavaScript promise: resolved with a value (possibly
null/undefined, modelled as `none`) or rejected with an error message. -/
inductive POutcome (α : Type) where
  | resolved (v : Option α)
  | rejected (msg : String)
deriving DecidableEq

/-- The rejection message built by withTimeout.js:
`Timeout: operation exceeded ${ms}ms`. -/
def timeoutMessage (ms : Nat) : String :=
  "Timeout: operation exceeded " ++ Nat.repr ms ++ "ms"

/-- Model of `withTimeout(promise, ms)` (withTimeout.js lines 7-18).
The wrapped operation is given by its completion time and settled outcome
(`none` when it never settles); `Promise.race` propagates the operation's own
outcome when it settles strictly before the timer, and rejects with the
timeout message otherwise. -/
def withTimeout {α : Type} (op : Option (Nat × POutcome α)) (ms : Nat) : POutcome α :=
  match op with
  | some (t, o) => if t < ms then o else POutcome.rejected (timeoutMessage ms)
  | none => POutcome.rejected (timeoutMessage ms)

theorem timeoutMessage_data (ms : Nat) :
    (timeoutMessage ms).data =
      ("Timeout: operation exceeded ").data ++ ((Nat.repr ms).data ++ ("ms").data) := by
  unfold timeoutMessage
  rw [String.data_append, String.data_append, List.append_assoc]

theorem occursIn_timeout_timeoutMessage (ms : Nat) :
    occursIn "Timeout" (timeoutMessage ms) = true := by
  unfold occursIn
  rw [timeoutMessage_data]
  have h : ("Timeout: operation exceeded ").data =
      ("Timeout").data ++ (": operation exceeded ").data := by decide
  rw [h, List.append_assoc]
  exact occursCL_of_matchAt (matchAt_append _ _)

theorem occursIn_repr_timeoutMessage (ms : Nat) :
    occursIn (Nat.repr ms) (timeoutMessage ms) = true := by
  unfold occursIn
  rw [timeoutMessage_data]
  exact occursCL_append_of _ _ _ (occursCL_of_matchAt (matchAt_append _ _))

theorem timeoutMessage_ne_empty (ms : Nat) : timeoutMessage ms ≠ "" := by
  intro h
  have hd : (timeoutMessage ms).data = [] := by rw [h]
  rw [timeoutMessage_data] at hd
  simp at hd

/- ### Collector Orchestrator — MetricsRepository.js -/

/-- Per-metric status produced by the repository. -/
inductive MStatus where
  | ok
  | degraded
  | unavailable
deriving DecidableEq

/-- A per-metric result `{ status, data, error }`. -/
structure MetricResult (α : Type) where
  status : MStatus
  data : Option α
  error : Option String
deriving DecidableEq

/-- Classification of one settled collector outcome for one key
(MetricsRepository.js lines 46-68), together with the updated
`_lastKnown[key]` entry. `last` is the current `_lastKnown[key]`. -/
def classifyMetric {α : Type} (key : String) (last : Option α) (settled : POutcome α) :
    MetricResult α × Option α :=
  match settled with
  | POutcome.resolved (some v) => (⟨MStatus.ok, some v, none⟩, some v)
  | POutcome.resolved none =>
      (⟨MStatus.unavailable, last, some (key ++ " returned null")⟩, last)
  | POutcome.rejected msg =>
      (⟨if occursIn "Timeout" msg then MStatus.degraded else MStatus.unavailable,
        last,
        some (if msg = "" then "Unknown error" else msg)⟩, last)

/-- The six metric keys, in the order of the `collectors` object literal. -/
inductive MKey where
  | cpu
  | memory
  | disk
  | processes
  | network
  | systemInfo
deriving DecidableEq

/-- The JavaScript property name of a metric key. -/
def MKey.keyName : MKey → String
  | MKey.cpu => "cpu"
  | MKey.memory => "memory"
  | MKey.disk => "disk"
  | MKey.processes => "processes"
  | MKey.network => "network"
  | MKey.systemInfo => "systemInfo"

/-- `Object.keys(collectors)` in source order. -/
def metricKeys : List MKey :=
  [MKey.cpu, MKey.memory, MKey.disk, MKey.processes, MKey.network, MKey.systemInfo]

/-- The classification loop of `getSystemMetrics` (lines 42-69): walk the keys
in order, classify each key's settled outcome against the current last-known
store, and thread the store updates through. -/
def collectLoop {α : Type} (settled : MKey → POutcome α) :
    List MKey → (MKey → Option α) → List (MKey × MetricResult α) × (MKey → Option α)
  | [], last => ([], last)
  | k :: ks, last =>
      let p := classifyMetric k.keyName (last k) (settled k)
      let rest := collectLoop settled ks (fun k2 => if k2 = k then p.2 else last k2)
      ((k, p.1) :: rest.1, rest.2)

/-- Model of `getSystemMetrics()`: all six collectors settle (via the
Timeout Guard), then each is classified in key order. Returns the metric
mapping and the updated last-known store. -/
def getSystemMetrics {α : Type} (last : MKey → Option α) (settled : MKey → POutcome α) :
    List (MKey × MetricResult α) × (MKey → Option α) :=
  collectLoop settled metricKeys last

/-- Repeated collection cycles for a single key: fold `classifyMetric` over a
sequence of settled outcomes, starting from last-known entry `last`. -/
def runKey {α : Type} (key : String) : Option α → List (POutcome α) → List (MetricResult α)
  | _, [] => []
  | last, o :: rest =>
      let p := classifyMetric key last o
      p.1 :: runKey key p.2 rest

/-- The data values of the outcomes that the repository classifies `ok`
(fulfilled with a non-null value). -/
def okValues {α : Type} : List (POutcome α) → List α :=
  List.filterMap (fun o =>
    match o with
    | POutcome.resolved (some v) => some v
    | _ => none)

/-- The last value observed with status `ok` over a prefix of outcomes, or the
initial last-known entry when none of them succeeded. -/
def lastAfter {α : Type} (last : Option α) (pre : List (POutcome α)) : Option α :=
  match (okValues pre).getLast? with
  | some v => some v
  | none => last

theorem lastAfter_cons {α : Type} (key : String) (last : Option α) (o : POutcome α)
    (pre : List (POutcome α)) :
    lastAfter last (o :: pre) = lastAfter (classifyMetric key last o).2 pre := by
  cases o with
  | resolved v =>
      cases v with
      | none => rfl
      | some a =>
          show lastAfter last (POutcome.resolved (some a) :: pre) = lastAfter (some a) pre
          unfold lastAfter okValues
          rw [List.filterMap_cons]
          cases h : (okValues pre).getLast? with
          | none =>
              have hnil : okValues pre = [] := by
                cases hp : okValues pre with
                | nil => rfl
                | cons x xs => rw [hp] at h; simp [List.getLast?] at h
              unfold okValues at hnil
              simp [hnil]
          | some w =>
              have hcons : ∃ x xs, okValues pre = x :: xs := by
                cases hp : okValues pre with
                | nil => rw [hp] at h; simp [List.getLast?] at h
                | cons x xs => exact ⟨x, xs, rfl⟩
              obtain ⟨x, xs, hp⟩ := hcons
              unfold okValues at hp
              simp only [hp, List.getLast?_cons_cons]
              have h2 := h
              unfold okValues at h2
              rw [hp] at h2
              rw [h2]
  | rejected m => rfl

theorem runKey_getElem {α : Type} (key : String) :
    ∀ (outs : List (POutcome α)) (last : Option α) (n : Nat),
      (runKey key last outs)[n]? =
        (outs[n]?).map (fun o => (classifyMetric key (lastAfter last (outs.take n)) o).1) := by
  intro outs
  induction outs with
  | nil => intro last n; simp [runKey]
  | cons o rest ih =>
      intro last n
      cases n with
      | zero => simp [runKey, lastAfter, okValues]
      | succ m =>
          simp only [runKey, List.getElem?_cons_succ, List.take_succ_cons]
          rw [ih, lastAfter_cons key]

/- ### History & Status Service — SystemMonitorService.js -/

/-- Global health status returned by `_computeGlobalStatus`. -/
inductive GStatus where
  | ok
  | degraded
  | critical
deriving DecidableEq

/-- Model of `_computeGlobalStatus(statuses)` (SystemMonitorService.js lines
73-81): all ok → ok, all unavailable → critical, otherwise degraded. -/
def computeGlobalStatus (statuses : List MStatus) : GStatus :=
  if statuses.all (fun s => s == MStatus.ok) then GStatus.ok
  else if statuses.all (fun s => s == MStatus.unavailable) then GStatus.critical
  else GStatus.degraded

/-- One history ring-buffer entry `{ cpu, memory, timestamp }`. -/
structure HistSample where
  cpu : Option Nat
  memory : Option Nat
  timestamp : Nat
deriving DecidableEq

/-- Ring-buffer state: the fixed-size `_history` array (empty slots are
`none`, matching the `fill(null)` initialisation) and the `_historyIndex`
write cursor. -/
structure HistState where
  hist : List (Option HistSample)
  idx : Nat
deriving DecidableEq

/-- `new Array(60).fill(null)` with cursor 0. -/
def initHistState : HistState := ⟨List.replicate 60 none, 0⟩

/-- The ring-buffer write of `getCurrentMetrics` (lines 33-38):
`this._history[this._historyIndex % HISTORY_SIZE] = sample; this._historyIndex++`. -/
def pushHistory (s : HistState) (smp : HistSample) : HistState :=
  ⟨s.hist.set (s.idx % 60) (some smp), s.idx + 1⟩

/-- Ascending-by-timestamp comparison used by
`sort((a, b) => a.timestamp - b.timestamp)`. -/
def tsLe (a b : HistSample) : Prop := a.timestamp ≤ b.timestamp

instance : DecidableRel tsLe := fun a b => Nat.decLe a.timestamp b.timestamp

instance : IsTotal HistSample tsLe := ⟨fun a b => Nat.le_total a.timestamp b.timestamp⟩

instance : IsTrans HistSample tsLe := ⟨fun _ _ _ => Nat.le_trans⟩

/-- Model of `getHistory()` (lines 63-65): drop the empty (`null`) slots and
sort ascending by timestamp. JavaScript `Array.prototype.sort` is stable, so
it is the stable ascending sort, i.e. insertion sort under `tsLe`. -/
def getHistory (s : HistState) : List HistSample :=
  List.insertionSort tsLe (s.hist.filterMap id)

/-- The distinct sample written on collection cycle `n` (1-based) in the
65-insertion scenario of the spec: cpu and memory carry the cycle number and
the timestamp is the cycle number. -/
def histSample (n : Nat) : HistSample := ⟨some n, some n, n⟩

/-- The service state after `n` collection-cycle insertions of
`histSample 1`, …, `histSample n`. -/
def pushN (n : Nat) : HistState :=
  (List.range n).foldl (fun st i => pushHistory st (histSample (i + 1))) initHistState

/-- The property names of the object literal returned by
`getCurrentMetrics()` (SystemMonitorService.js lines 48-56). -/
def snapshotKeys : List String :=
  ["timestamp", "status", "cpu", "memory", "disk", "processes", "history"]

theorem hist_length_inv (smps : List HistSample) :
    ((smps.foldl pushHistory initHistState).hist).length = 60 := by
  suffices h : ∀ (l : List HistSample) (s : HistState), s.hist.length = 60 →
      ((l.foldl pushHistory s).hist).length = 60 by
    exact h smps initHistState (by simp [initHistState])
  intro l
  induction l with
  | nil => intro s hs; simpa using hs
  | cons x xs ih =>
      intro s hs
      exact ih (pushHistory s x) (by simp [pushHistory, hs])

/- ### Broadcast Manager — sseManager.js (SSEManager) -/

/-- One registered SSE connection (an Express response object). `failing`
records whether every `write` on this connection throws. -/
structure Conn where
  id : Nat
  failing : Bool
deriving DecidableEq

/-- The broadcast frame `data: ${JSON.stringify(data)}\n\n`; the
JSON-serialisable payload is abstracted to a natural number. -/
def serializeSnap (d : Nat) : String := "data: " ++ Nat.repr d ++ "\n\n"

/-- The loop body of `broadcast` (sseManager.js lines 53-60): write the
payload to each client in registration order; a client whose write throws is
caught and deleted from the registry and delivery continues. Returns the
surviving registry and the list of successful writes `(client id, payload)`.
The try/catch makes the loop total: no write failure escapes the call. -/
def broadcastRun (payload : String) : List Conn → List Conn × List (Nat × String)
  | [] => ([], [])
  | c :: rest =>
      let r := broadcastRun payload rest
      if c.failing then (r.1, r.2) else (c :: r.1, (c.id, payload) :: r.2)

/-- SSEManager state: the `_clients` Set (insertion-ordered, duplicate-free)
and the `_heartbeatInterval` field. `stored` is whether the field currently
holds an interval id; `leaked` counts intervals that were overwritten by
`_startHeartbeat` without being cleared and therefore keep firing forever. -/
structure MgrState where
  clients : List Conn
  stored : Bool
  leaked : Nat
deriving DecidableEq

/-- `new SSEManager()`. -/
def initMgr : MgrState := ⟨[], false, 0⟩

/-- `_startHeartbeat` (lines 67-77): unconditionally assigns a fresh interval
to `_heartbeatInterval`; an interval already stored there is leaked. -/
def startHeartbeat (s : MgrState) : MgrState :=
  { s with leaked := s.leaked + (if s.stored then 1 else 0), stored := true }

/-- `_stopHeartbeat` (lines 79-84): clears the stored interval, if any. -/
def stopHeartbeat (s : MgrState) : MgrState := { s with stored := false }

/-- Is any keep-alive interval currently firing (stored or leaked)? -/
def heartbeatRunning (s : MgrState) : Bool := s.stored || decide (0 < s.leaked)

/-- JavaScript `Set.prototype.add`: no-op on membership, else append. -/
def setInsert (c : Conn) (cs : List Conn) : List Conn :=
  if c ∈ cs then cs else cs ++ [c]

/-- Events that drive the SSEManager. -/
inductive MEvent where
  | addClient (c : Conn)
  | closeEvt (c : Conn)
  | broadcast (d : Nat)
  | tick
deriving DecidableEq

/-- One SSEManager event handler, as a state transition:
* `addClient` (lines 18-44): add to the Set; start the heartbeat when the
  Set's size is 1 after the add.
* `closeEvt` (lines 32-39): the transport `close` handler — delete the
  client; stop the heartbeat when the registry became empty.
* `broadcast` (lines 50-61): write to every client, deleting those whose
  write throws; the heartbeat is not touched.
* `tick` (lines 68-76): an interval firing — write the comment frame to
  every client, deleting those whose write throws; only possible while some
  interval is live. -/
def stepM (s : MgrState) : MEvent → MgrState
  | MEvent.addClient c =>
      let cs := setInsert c s.clients
      let s1 := { s with clients := cs }
      if cs.length = 1 then startHeartbeat s1 else s1
  | MEvent.closeEvt c =>
      let cs := s.clients.erase c
      let s1 := { s with clients := cs }
      if cs.isEmpty then stopHeartbeat s1 else s1
  | MEvent.broadcast d =>
      { s with clients := (broadcastRun (serializeSnap d) s.clients).1 }
  | MEvent.tick =>
      if heartbeatRunning s
      then { s with clients := (broadcastRun ":heartbeat\n\n" s.clients).1 }
      else s

/-- A run of the SSEManager from a state through a list of events. -/
def runM (s : MgrState) (evs : List MEvent) : MgrState := evs.foldl stepM s

theorem broadcastRun_fst (payload : String) (cs : List Conn) :
    (broadcastRun payload cs).1 = cs.filter (fun c => !c.failing) := by
  induction cs with
  | nil => rfl
  | cons c rest ih =>
      by_cases h : c.failing = true
      · simp [broadcastRun, List.filter_cons, h, ih]
      · have h2 : c.failing = false := by
          cases hc : c.failing
          · rfl
          · exact absurd hc h
        simp [broadcastRun, List.filter_cons, h2, ih]

theorem stepM_nonempty_stored (s : MgrState) (e : MEvent)
    (hs : s.clients ≠ [] → s.stored = true) :
    (stepM s e).clients ≠ [] → (stepM s e).stored = true := by
  cases e with
  | addClient c =>
      intro _
      by_cases hlen : (setInsert c s.clients).length = 1
      · simp [stepM, hlen, startHeartbeat]
      · have hne : s.clients ≠ [] := by
          intro hnil
          apply hlen
          simp [setInsert, hnil]
        simp [stepM, hlen]
        exact hs hne
  | closeEvt c =>
      intro hne
      by_cases hemp : (s.clients.erase c).isEmpty = true
      · exfalso
        apply hne
        simp [stepM, hemp, stopHeartbeat, List.isEmpty_iff.mp hemp]
      · have hne2 : s.clients ≠ [] := by
          intro hnil
          apply hemp
          simp [hnil]
        simpa [stepM, hemp] using hs hne2
  | broadcast d =>
      intro hne
      have hcl : s.clients ≠ [] := by
        intro hnil
        apply hne
        simp [stepM, hnil, broadcastRun]
      simpa [stepM] using hs hcl
  | tick =>
      by_cases hr : heartbeatRunning s = true
      · intro hne
        have hcl : s.clients ≠ [] := by
          intro hnil
          apply hne
          simp [stepM, hr, hnil, broadcastRun]
        simpa [stepM, hr] using hs hcl
      · simpa [stepM, hr] using hs

theorem runM_nonempty_stored (evs : List MEvent) :
    ∀ s : MgrState, (s.clients ≠ [] → s.stored = true) →
      ((runM s evs).clients ≠ [] → (runM s evs).stored = true) := by
  induction evs with
  | nil => intro s hs; exact hs
  | cons e rest ih =>
      intro s hs
      exact ih (stepM s e) (stepM_nonempty_stored s e hs)

/- ### Reconnection State Machine — sseClient.js (SSEClient) -/

/-- Connection status delivered to the `onStatus` callback. -/
inductive CStatus where
  | connected
  | reconnecting
  | disconnected
deriving DecidableEq

/-- Observable side effects of one SSEClient handler. -/
inductive CEffect where
  | statusCb (s : CStatus)
  | dataCb (d : Nat)
  | scheduleReopen (delayMs : Nat)
deriving DecidableEq

/-- Events that drive one SSEClient: the public calls, the EventSource
callbacks (only deliverable while an EventSource is attached) and the firing
of the pending reconnect timer. A message event carries its payload and
whether `JSON.parse` succeeds on it. -/
inductive CEvent where
  | connect
  | reconnect
  | openOk
  | message (d : Nat) (wellFormed : Bool)
  | transportError
  | timerFire
deriving DecidableEq

/-- SSEClient state (constructor, sseClient.js lines 14-23). `tracked` is
whether `_eventSource` holds an open EventSource, `timerSet` whether
`_reconnectTimeout` holds a pending timer. `leakedSources`/`leakedTimers`
count EventSources/timers that were overwritten while still live — the code
is supposed to never do that, and the counters let us prove it. -/
structure SSEState where
  retryCount : Nat
  backoff : Nat
  tracked : Bool
  timerSet : Bool
  lastData : Option Nat
  leakedSources : Nat
  leakedTimers : Nat
deriving DecidableEq

/-- `new SSEClient(url)`. -/
def initSSE : SSEState := ⟨0, 1000, false, false, none, 0, 0⟩

/-- `_close()` (lines 85-94): close the tracked EventSource and clear the
pending reconnect timer, if any. -/
def closeSSE (s : SSEState) : SSEState := { s with tracked := false, timerSet := false }

/-- `_open()` (lines 47-51 and 51-82): `_close()`, emit `reconnecting`, then
attach a fresh EventSource. Overwriting a still-open EventSource would leak
it. -/
def openSSE (s : SSEState) : SSEState × List CEffect :=
  let s1 := closeSSE s
  ({ s1 with
      leakedSources := s1.leakedSources + (if s1.tracked then 1 else 0),
      tracked := true },
   [CEffect.statusCb CStatus.reconnecting])

/-- One SSEClient event handler as a state transition with effects; `none`
when the event cannot occur in this state (EventSource callbacks need an
attached source, a timer can only fire while pending):
* `connect` (lines 29-33): `_open()`.
* `reconnect` (lines 36-40): reset retry counter and backoff, `_open()`.
* `openOk` (`onopen`, lines 53-57): reset retry counter and backoff, emit
  `connected`.
* `message` (`onmessage`, lines 59-68): on parse success store the data,
  reset the retry counter and deliver `onData`; a malformed frame only logs.
* `transportError` (`onerror`, lines 70-82): `_close()`, bump the retry
  counter; at the 10-retry ceiling emit `disconnected` and stop, otherwise
  emit `reconnecting`, schedule a reopen after the current backoff and double
  the backoff capped at 30000.
* `timerFire`: the scheduled `() => this._open()` runs; the timer is no
  longer pending. -/
def stepC (s : SSEState) : CEvent → Option (SSEState × List CEffect)
  | CEvent.connect => some (openSSE s)
  | CEvent.reconnect => some (openSSE { s with retryCount := 0, backoff := 1000 })
  | CEvent.openOk =>
      if s.tracked then
        some ({ s with retryCount := 0, backoff := 1000 }, [CEffect.statusCb CStatus.connected])
      else none
  | CEvent.message d wellFormed =>
      if s.tracked then
        if wellFormed then
          some ({ s with lastData := some d, retryCount := 0 }, [CEffect.dataCb d])
        else some (s, [])
      else none
  | CEvent.transportError =>
      if s.tracked then
        let s1 := closeSSE s
        if 10 ≤ s1.retryCount + 1 then
          some ({ s1 with retryCount := s1.retryCount + 1 },
            [CEffect.statusCb CStatus.disconnected])
        else
          some ({ s1 with
              retryCount := s1.retryCount + 1,
              leakedTimers := s1.leakedTimers + (if s1.timerSet then 1 else 0),
              timerSet := true,
              backoff := min (s1.backoff * 2) 30000 },
            [CEffect.statusCb CStatus.reconnecting, CEffect.scheduleReopen s1.backoff])
      else none
  | CEvent.timerFire =>
      if s.timerSet then some (openSSE { s with timerSet := false }) else none

/-- A run of the SSEClient: apply each event's handler when the event is
possible in the current state, collecting the emitted effects. -/
def runWithEff : SSEState → List CEvent → SSEState × List CEffect
  | s, [] => (s, [])
  | s, e :: rest =>
      match stepC s e with
      | some (s1, effs) =>
          let r := runWithEff s1 rest
          (r.1, effs ++ r.2)
      | none => runWithEff s rest

/-- The state reached by a run. -/
def runC (s : SSEState) (evs : List CEvent) : SSEState := (runWithEff s evs).1

/-- The reopen delays scheduled during a run, in order. -/
def scheduledDelays (effs : List CEffect) : List Nat :=
  effs.filterMap (fun e =>
    match e with
    | CEffect.scheduleReopen d => some d
    | _ => none)

/-- The trace with `n` consecutive transport errors and no successful frame:
`connect()`, then `n` times an error followed by the scheduled reopen. -/
def errTrace (n : Nat) : List CEvent :=
  CEvent.connect :: (List.replicate n [CEvent.transportError, CEvent.timerFire]).flatten

/-- The circuit-breaker trace: `connect()` and 10 consecutive transport
errors (the first 9 each followed by their scheduled reopen). -/
def breakerTrace : List CEvent := errTrace 9 ++ [CEvent.transportError]

/-- Number of EventSources currently open: the tracked one plus any leaked. -/
def liveSources (s : SSEState) : Nat :=
  s.leakedSources + (if s.tracked then 1 else 0)

/-- Number of reconnect timers currently pending: the tracked one plus any
leaked. -/
def liveTimers (s : SSEState) : Nat :=
  s.leakedTimers + (if s.timerSet then 1 else 0)

theorem stepC_leaks {s : SSEState} {e : CEvent} {out : SSEState × List CEffect}
    (hout : stepC s e = some out) (h1 : s.leakedSources = 0) (h2 : s.leakedTimers = 0) :
    out.1.leakedSources = 0 ∧ out.1.leakedTimers = 0 := by
  cases e <;> simp only [stepC, openSSE, closeSSE] at hout <;>
    (try split at hout) <;> (try split at hout) <;> cases hout <;> simp_all

theorem stepC_backoff {s : SSEState} {e : CEvent} {out : SSEState × List CEffect}
    (hout : stepC s e = some out) (hb : s.backoff ≤ 30000) :
    out.1.backoff ≤ 30000 ∧ ∀ d ∈ scheduledDelays out.2, d ≤ 30000 := by
  cases e <;> simp only [stepC, openSSE, closeSSE] at hout <;>
    (try split at hout) <;> (try split at hout) <;> cases hout <;>
    simp_all [scheduledDelays, min_le_right, inf_le_right]

theorem runC_inv (evs : List CEvent) :
    ∀ s : SSEState, s.leakedSources = 0 → s.leakedTimers = 0 → s.backoff ≤ 30000 →
      ((runWithEff s evs).1.leakedSources = 0 ∧ (runWithEff s evs).1.leakedTimers = 0 ∧
       (runWithEff s evs).1.backoff ≤ 30000 ∧
       ∀ d ∈ scheduledDelays (runWithEff s evs).2, d ≤ 30000) := by
  induction evs with
  | nil =>
      intro s h1 h2 h3
      exact ⟨h1, h2, h3, by simp [runWithEff, scheduledDelays]⟩
  | cons e rest ih =>
      intro s h1 h2 h3
      cases hstep : stepC s e with
      | none => simpa [runWithEff, hstep] using ih s h1 h2 h3
      | some out =>
          obtain ⟨hl1, hl2⟩ := stepC_leaks hstep h1 h2
          obtain ⟨hb1, hb2⟩ := stepC_backoff hstep h3
          obtain ⟨k1, k2, k3, k4⟩ := ih out.1 hl1 hl2 hb1
          refine ⟨?_, ?_, ?_, ?_⟩
          · simpa [runWithEff, hstep] using k1
          · simpa [runWithEff, hstep] using k2
          · simpa [runWithEff, hstep] using k3
          · intro d hd
            simp only [runWithEff, hstep] at hd
            rw [scheduledDelays, List.filterMap_append] at hd
            rcases List.mem_append.mp hd with h | h
            · exact hb2 d h
            · exact k4 d h

theorem broadcastRun_snd (payload : String) (cs : List Conn) :
    (broadcastRun payload cs).2 =
      (cs.filter (fun c => !c.failing)).map (fun c => (c.id, payload)) := by
  induction cs with
  | nil => rfl
  | cons c rest ih =>
      by_cases h : c.failing = true
      · simp [broadcastRun, List.filter_cons, h, ih]
      · have h2 : c.failing = false := by
          cases hc : c.failing
          · rfl
          · exact absurd hc h
        simp [broadcastRun, List.filter_cons, h2, ih]

/- ### Claim theorems -/

/-- C1 (amended): per cycle and per key, the result returned by
`getSystemMetrics` is determined by that key's own settled outcome and that
key's own last-known entry — a non-null fulfilment yields `ok` with the value
and updates the last-known store; a null fulfilment yields `unavailable` with
the last value observed with status ok (or null) and error
"<key> returned null"; a Timeout-Guard failure yields `degraded` with the
last-known fallback and the guard's Timeout message; any other rejection also
falls back to the last-known value and is classified `degraded` when its
message contains "Timeout" and `unavailable` otherwise; the status is never
`ok` on a rejection. -/
theorem metrics_classification :
    (∀ (α : Type) (key : String) (last : Option α) (v : α),
        classifyMetric key last (POutcome.resolved (some v)) =
          (⟨MStatus.ok, some v, none⟩, some v)) ∧
    (∀ (α : Type) (key : String) (last : Option α),
        classifyMetric key last (POutcome.resolved (none : Option α)) =
          (⟨MStatus.unavailable, last, some (key ++ " returned null")⟩, last)) ∧
    (∀ (α : Type) (key : String) (last : Option α) (msg : String),
        (classifyMetric key last (POutcome.rejected msg) : MetricResult α × Option α).1.status =
          (if occursIn "Timeout" msg then MStatus.degraded else MStatus.unavailable) ∧
        (classifyMetric key last (POutcome.rejected msg)).1.data = last ∧
        (classifyMetric key last (POutcome.rejected msg)).2 = last ∧
        (classifyMetric key last (POutcome.rejected msg)).1.status ≠ MStatus.ok) ∧
    (∀ (α : Type) (key : String) (last : Option α) (t ms : Nat) (o : POutcome α), ms ≤ t →
        (classifyMetric key last (withTimeout (some (t, o)) ms)).1.status = MStatus.degraded ∧
        (classifyMetric key last (withTimeout (some (t, o)) ms)).1.data = last ∧
        (classifyMetric key last (withTimeout (some (t, o)) ms)).1.error =
          some (timeoutMessage ms) ∧
        occursIn "Timeout" (timeoutMessage ms) = true) ∧
    (∀ (α : Type) (key : String) (last : Option α) (outs : List (POutcome α)) (n : Nat),
        (runKey key last outs)[n]? =
          (outs[n]?).map (fun o => (classifyMetric key (lastAfter last (outs.take n)) o).1)) ∧
    (∀ (α : Type) (last : MKey → Option α) (settled : MKey → POutcome α) (k : MKey),
        ((getSystemMetrics last settled).1).lookup k =
          some (classifyMetric k.keyName (last k) (settled k)).1) := by
  refine ⟨fun α key last v => rfl, fun α key last => rfl, ?_, ?_, ?_, ?_⟩
  · intro α key last msg
    refine ⟨rfl, rfl, rfl, ?_⟩
    by_cases h : occursIn "Timeout" msg = true
    · simp [classifyMetric, h]
    · simp [classifyMetric, h]
  · intro α key last t ms o h
    have hw : withTimeout (some (t, o)) ms = POutcome.rejected (timeoutMessage ms) := by
      simp [withTimeout, Nat.not_lt.mpr h]
    rw [hw]
    refine ⟨?_, rfl, ?_, occursIn_timeout_timeoutMessage ms⟩
    · simp [classifyMetric, occursIn_timeout_timeoutMessage ms]
    · simp [classifyMetric, timeoutMessage_ne_empty ms]
  · intro α key last outs n
    exact runKey_getElem key outs last n
  · intro α last settled k
    cases k <;> rfl

/-- C1 witness: a collector hitting the 1000ms Timeout Guard deadline is
classified degraded with the previously stored value as data. -/
theorem metrics_classification_witness :
    (classifyMetric "cpu" (some 42)
        (withTimeout (some (1000, POutcome.resolved (some (7 : Nat)))) 1000)).1.status =
      MStatus.degraded ∧
    (classifyMetric "cpu" (some 42)
        (withTimeout (some (1000, POutcome.resolved (some (7 : Nat)))) 1000)).1.data =
      some 42 :=
  ⟨(metrics_classification.2.2.2.1 Nat "cpu" (some 42) 1000 1000
      (POutcome.resolved (some 7)) (by decide)).1,
   (metrics_classification.2.2.2.1 Nat "cpu" (some 42) 1000 1000
      (POutcome.resolved (some 7)) (by decide)).2.1⟩

/-- C1 counterexample: a provider failure that is not caused by the Timeout
Guard — the collector itself rejects, settling well inside the 1000ms
deadline, with a message that happens to contain "Timeout" — is classified
`degraded`, not `unavailable` as the claim requires for non-guard failures. -/
theorem metrics_classification_cex :
    withTimeout (some (0, POutcome.rejected "Timeout while reading temperature")) 1000 =
      (POutcome.rejected "Timeout while reading temperature" : POutcome Nat) ∧
    (classifyMetric "cpu" (none : Option Nat)
        (POutcome.rejected "Timeout while reading temperature")).1.status = MStatus.degraded ∧
    MStatus.degraded ≠ MStatus.unavailable := by
  decide

/-- C2: the global status computed from the four primary metric statuses is
ok iff all four are ok, critical iff all four are unavailable, and degraded
in every other case. -/
theorem globalStatus_matrix :
    ∀ a b c d : MStatus,
      (computeGlobalStatus [a, b, c, d] = GStatus.ok ↔
        (a = MStatus.ok ∧ b = MStatus.ok ∧ c = MStatus.ok ∧ d = MStatus.ok)) ∧
      (computeGlobalStatus [a, b, c, d] = GStatus.critical ↔
        (a = MStatus.unavailable ∧ b = MStatus.unavailable ∧
         c = MStatus.unavailable ∧ d = MStatus.unavailable)) ∧
      (computeGlobalStatus [a, b, c, d] = GStatus.degraded ↔
        (¬(a = MStatus.ok ∧ b = MStatus.ok ∧ c = MStatus.ok ∧ d = MStatus.ok) ∧
         ¬(a = MStatus.unavailable ∧ b = MStatus.unavailable ∧
           c = MStatus.unavailable ∧ d = MStatus.unavailable))) := by
  intro a b c d
  cases a <;> cases b <;> cases c <;> cases d <;> decide

/-- C2 witness: a mix of ok and unavailable statuses is degraded. -/
theorem globalStatus_matrix_witness :
    computeGlobalStatus [MStatus.ok, MStatus.degraded, MStatus.ok, MStatus.unavailable] =
      GStatus.degraded :=
  ((globalStatus_matrix MStatus.ok MStatus.degraded MStatus.ok MStatus.unavailable).2.2).mpr
    (by decide)

/-- C3: the history read never exceeds 60 entries and is sorted oldest to
newest by timestamp after any insertion sequence, the backing ring stays at
exactly 60 slots, and after exactly 65 insertions the read is exactly
samples 6..65: 60 entries, samples 1-5 absent, sample 6 oldest. -/
theorem historyBuffer_window :
    (∀ smps : List HistSample,
        (getHistory (smps.foldl pushHistory initHistState)).length ≤ 60 ∧
        List.Sorted tsLe (getHistory (smps.foldl pushHistory initHistState)) ∧
        ((smps.foldl pushHistory initHistState).hist).length = 60) ∧
    (getHistory (pushN 65) = (List.range 60).map (fun i => histSample (i + 6))) ∧
    ((getHistory (pushN 65)).length = 60 ∧
      histSample 1 ∉ getHistory (pushN 65) ∧
      histSample 5 ∉ getHistory (pushN 65) ∧
      (getHistory (pushN 65)).head? = some (histSample 6) ∧
      (getHistory (pushN 65)).getLast? = some (histSample 65)) := by
  refine ⟨?_, by decide, by decide, by decide, by decide, by decide, by decide⟩
  intro smps
  refine ⟨?_, List.sorted_insertionSort tsLe _, hist_length_inv smps⟩
  have h1 : (getHistory (smps.foldl pushHistory initHistState)).length
      = (((smps.foldl pushHistory initHistState).hist).filterMap id).length := by
    simp [getHistory, List.length_insertionSort]
  rw [h1]
  calc (((smps.foldl pushHistory initHistState).hist).filterMap id).length
      ≤ ((smps.foldl pushHistory initHistState).hist).length := List.length_filterMap_le id _
    _ = 60 := hist_length_inv smps

/-- C4: from the initial state, 10 consecutive transport errors without any
intervening successful open or frame reach the disconnected state with no
EventSource attached and no reconnect timer pending (only 9 reopens were ever
scheduled); in such a state no event is possible except the manual calls
`connect`/`reconnect`; and `reconnect()` from any state resets the retry
counter to 0 and the backoff to 1000ms and immediately re-runs the open
sequence. -/
theorem circuitBreaker_reconnect :
    ((runWithEff initSSE breakerTrace).1 = ⟨10, 30000, false, false, none, 0, 0⟩ ∧
     (runWithEff initSSE breakerTrace).2.getLast? =
       some (CEffect.statusCb CStatus.disconnected) ∧
     (scheduledDelays (runWithEff initSSE breakerTrace).2).length = 9) ∧
    (∀ (s : SSEState) (e : CEvent) (out : SSEState × List CEffect),
        s.tracked = false → s.timerSet = false → stepC s e = some out →
        e = CEvent.connect ∨ e = CEvent.reconnect) ∧
    (∀ s : SSEState,
        stepC s CEvent.reconnect =
          some (⟨0, 1000, true, false, s.lastData, s.leakedSources, s.leakedTimers⟩,
            [CEffect.statusCb CStatus.reconnecting])) := by
  refine ⟨⟨by decide, by decide, by decide⟩, ?_, fun s => rfl⟩
  intro s e out h1 h2 hstep
  cases e
  · exact Or.inl rfl
  · exact Or.inr rfl
  all_goals simp [stepC, h1, h2] at hstep

/-- C4 witness: in the tripped-breaker state (10 retries, nothing attached,
nothing pending) the `connect` event is possible and is a manual call. -/
theorem circuitBreaker_reconnect_witness :
    stepC ⟨10, 30000, false, false, none, 0, 0⟩ CEvent.connect =
      some (⟨10, 30000, true, false, none, 0, 0⟩,
        [CEffect.statusCb CStatus.reconnecting]) ∧
    (CEvent.connect = CEvent.connect ∨ CEvent.connect = CEvent.reconnect) :=
  ⟨rfl,
   circuitBreaker_reconnect.2.1 ⟨10, 30000, false, false, none, 0, 0⟩ CEvent.connect
     (⟨10, 30000, true, false, none, 0, 0⟩, [CEffect.statusCb CStatus.reconnecting])
     rfl rfl rfl⟩

/-- C5: the delays scheduled before the reopen attempts over 9 consecutive
transport errors from the initial state are exactly 1000, 2000, 4000, 8000,
16000, 30000, 30000, 30000, 30000 ms; the delay after the (k+1)-th error is
min(1000·2^k, 30000); and no run from the initial state ever schedules a
delay above 30000ms. -/
theorem backoff_schedule :
    (scheduledDelays (runWithEff initSSE (errTrace 9)).2 =
      [1000, 2000, 4000, 8000, 16000, 30000, 30000, 30000, 30000]) ∧
    (∀ k : Fin 9,
        (scheduledDelays (runWithEff initSSE (errTrace (k.val + 1))).2).getLast? =
          some (min (1000 * 2 ^ k.val) 30000)) ∧
    (∀ (evs : List CEvent) (d : Nat),
        d ∈ scheduledDelays (runWithEff initSSE evs).2 → d ≤ 30000) := by
  refine ⟨by decide, by decide, ?_⟩
  intro evs d hd
  exact (runC_inv evs initSSE rfl rfl (by decide)).2.2.2 d hd

/-- C5 witness: the first error schedules exactly the initial 1000ms backoff,
which is within the 30000ms cap. -/
theorem backoff_schedule_witness :
    scheduledDelays (runWithEff initSSE (errTrace 1)).2 = [1000] ∧ (1000 : Nat) ≤ 30000 :=
  ⟨by decide, backoff_schedule.2.2 (errTrace 1) 1000 (by decide)⟩

/-- C6: `broadcast` serialises the snapshot once into a single payload frame;
every connection registered at the start whose write does not throw receives
exactly that frame and stays registered, every connection whose write throws
is removed from the registry, every delivered frame is the identical payload,
and the loop is a total function — a failing write never escapes the call. -/
theorem broadcast_fanout :
    ∀ (cs : List Conn) (d : Nat),
      ((broadcastRun (serializeSnap d) cs).1 = cs.filter (fun c => !c.failing)) ∧
      ((broadcastRun (serializeSnap d) cs).2 =
        (cs.filter (fun c => !c.failing)).map (fun c => (c.id, serializeSnap d))) ∧
      (∀ c ∈ cs, c.failing = false →
        (c.id, serializeSnap d) ∈ (broadcastRun (serializeSnap d) cs).2 ∧
        c ∈ (broadcastRun (serializeSnap d) cs).1) ∧
      (∀ c ∈ cs, c.failing = true → c ∉ (broadcastRun (serializeSnap d) cs).1) ∧
      (∀ w ∈ (broadcastRun (serializeSnap d) cs).2, w.2 = serializeSnap d) := by
  intro cs d
  refine ⟨broadcastRun_fst _ cs, broadcastRun_snd _ cs, ?_, ?_, ?_⟩
  · intro c hc hf
    constructor
    · rw [broadcastRun_snd]
      exact List.mem_map.mpr ⟨c, List.mem_filter.mpr ⟨hc, by simp [hf]⟩, rfl⟩
    · rw [broadcastRun_fst]
      exact List.mem_filter.mpr ⟨hc, by simp [hf]⟩
  · intro c hc hf hmem
    rw [broadcastRun_fst] at hmem
    have := (List.mem_filter.mp hmem).2
    simp [hf] at this
  · intro w hw
    rw [broadcastRun_snd] at hw
    obtain ⟨c, _, hcw⟩ := List.mem_map.mp hw
    rw [← hcw]

/-- C6 witness: with one healthy and one failing registered connection, the
healthy one receives the serialised frame and the failing one is evicted. -/
theorem broadcast_fanout_witness :
    (1, serializeSnap 5) ∈ (broadcastRun (serializeSnap 5) [⟨1, false⟩, ⟨2, true⟩]).2 ∧
    (⟨2, true⟩ : Conn) ∉ (broadcastRun (serializeSnap 5) [⟨1, false⟩, ⟨2, true⟩]).1 :=
  ⟨((broadcast_fanout [⟨1, false⟩, ⟨2, true⟩] 5).2.2.1 ⟨1, false⟩ (by decide) rfl).1,
   (broadcast_fanout [⟨1, false⟩, ⟨2, true⟩] 5).2.2.2.1 ⟨2, true⟩ (by decide) rfl⟩

/-- C7: if the guarded operation settles strictly before the deadline its
outcome propagates unchanged — a resolved value identically (including the
null/undefined outcome `resolved none`) and a rejection with its original
error; if the timer fires first the guard rejects with a message containing
"Timeout" and the deadline value in milliseconds. -/
theorem withTimeout_guard :
    (∀ (α : Type) (t ms : Nat) (o : POutcome α), t < ms →
        withTimeout (some (t, o)) ms = o) ∧
    (∀ (α : Type) (t ms : Nat) (v : Option α), t < ms →
        withTimeout (some (t, POutcome.resolved v)) ms = POutcome.resolved v) ∧
    (∀ (α : Type) (t ms : Nat) (m : String), t < ms →
        withTimeout (some (t, (POutcome.rejected m : POutcome α))) ms =
          POutcome.rejected m) ∧
    (∀ (α : Type) (t ms : Nat) (o : POutcome α), ms < t →
        withTimeout (some (t, o)) ms = POutcome.rejected (timeoutMessage ms) ∧
        occursIn "Timeout" (timeoutMessage ms) = true ∧
        occursIn (Nat.repr ms) (timeoutMessage ms) = true) := by
  refine ⟨?_, ?_, ?_, ?_⟩
  · intro α t ms o h
    simp [withTimeout, h]
  · intro α t ms v h
    simp [withTimeout, h]
  · intro α t ms m h
    simp [withTimeout, h]
  · intro α t ms o h
    refine ⟨?_, occursIn_timeout_timeoutMessage ms, occursIn_repr_timeoutMessage ms⟩
    simp [withTimeout, Nat.not_lt.mpr (Nat.le_of_lt h)]

/-- C7 witness: a null resolution at 5ms passes through a 50ms guard
unchanged, and an operation resolving at 500ms against a 50ms deadline is
replaced by the Timeout rejection. -/
theorem withTimeout_guard_witness :
    withTimeout (some (5, POutcome.resolved (none : Option Nat))) 50 =
      POutcome.resolved none ∧
    withTimeout (some (500, POutcome.resolved (some (7 : Nat)))) 50 =
      POutcome.rejected (timeoutMessage 50) ∧
    occursIn "Timeout" (timeoutMessage 50) = true :=
  ⟨withTimeout_guard.1 Nat 5 50 (POutcome.resolved none) (by decide),
   (withTimeout_guard.2.2.2 Nat 500 50 (POutcome.resolved (some 7)) (by decide)).1,
   (withTimeout_guard.2.2.2 Nat 500 50 (POutcome.resolved (some 7)) (by decide)).2.1⟩

/-- C8 (amended): in every reachable SSEManager state a non-empty registry
implies the keep-alive interval is running, and a `close` event that empties
the registry stops it; the converse of the invariant fails — write-failure
eviction (broadcast or heartbeat) never stops the interval, so the timer can
keep running with an empty registry. -/
theorem heartbeat_nonempty :
    (∀ evs : List MEvent, (runM initMgr evs).clients ≠ [] →
        heartbeatRunning (runM initMgr evs) = true) ∧
    (∀ (s : MgrState) (c : Conn), (stepM s (MEvent.closeEvt c)).clients = [] →
        (stepM s (MEvent.closeEvt c)).stored = false) := by
  constructor
  · intro evs h
    have hst := runM_nonempty_stored evs initMgr (fun hc => absurd rfl hc) h
    simp [heartbeatRunning, hst]
  · intro s c h
    by_cases hemp : (s.clients.erase c).isEmpty = true
    · simp [stepM, hemp, stopHeartbeat]
    · exfalso
      apply hemp
      simp only [stepM] at h
      rw [if_neg (by simpa using hemp)] at h
      exact List.isEmpty_iff.mpr h

/-- C8 witness: after one client registers, the keep-alive interval runs. -/
theorem heartbeat_nonempty_witness :
    heartbeatRunning (runM initMgr [MEvent.addClient ⟨3, false⟩]) = true :=
  heartbeat_nonempty.1 [MEvent.addClient ⟨3, false⟩] (by decide)

/-- C8 counterexample: register one connection whose writes throw, then
broadcast once — the connection is evicted, the registry is empty, yet the
keep-alive interval is still running, refuting the "running iff non-empty"
invariant in a reachable state. -/
theorem heartbeat_nonempty_cex :
    (runM initMgr [MEvent.addClient ⟨0, true⟩, MEvent.broadcast 7]).clients = [] ∧
    heartbeatRunning (runM initMgr [MEvent.addClient ⟨0, true⟩, MEvent.broadcast 7]) = true := by
  decide

/-- C9: the object literal returned by `getCurrentMetrics()` carries exactly
the keys timestamp, status, cpu, memory, disk, processes and history — the
network and systemInfo results are absent, although the client-side network
and system-info renderers read `metrics.network` / `metrics.systemInfo` from
this very payload. -/
theorem snapshot_keys_coverage :
    snapshotKeys =
      ["timestamp", "status", "cpu", "memory", "disk", "processes", "history"] ∧
    ("timestamp" ∈ snapshotKeys ∧ "status" ∈ snapshotKeys ∧ "cpu" ∈ snapshotKeys ∧
     "memory" ∈ snapshotKeys ∧ "disk" ∈ snapshotKeys ∧ "processes" ∈ snapshotKeys ∧
     "history" ∈ snapshotKeys) ∧
    "network" ∉ snapshotKeys ∧ "systemInfo" ∉ snapshotKeys := by
  refine ⟨rfl, by decide, by decide, by decide⟩

/-- C10: after any event sequence from the initial state, the client holds at
most one open EventSource and at most one pending reconnect timer — every
path through `_open`/`onerror` closes the existing source and cancels the
pending timer before attaching a new one, so none is ever leaked. -/
theorem single_transport_invariant :
    ∀ evs : List CEvent,
      liveSources (runC initSSE evs) ≤ 1 ∧ liveTimers (runC initSSE evs) ≤ 1 := by
  intro evs
  obtain ⟨h1, h2, _, _⟩ := runC_inv evs initSSE rfl rfl (by decide)
  constructor
  · unfold liveSources runC
    rw [h1]
    cases (runWithEff initSSE evs).1.tracked <;> simp
  · unfold liveTimers runC
    rw [h2]
    cases (runWithEff initSSE evs).1.timerSet <;> simp
